import Mathlib

/-!
Verification of the Cender dispatch pipeline.

Shallow embedding of the message encoder (backend/gmail_service.py,
create_message) and of the dispatch orchestrator
(backend/services/email_service.py, EmailService.send_emails_stream),
together with the parts of the CPython email library that create_message
invokes (email.mime.text.MIMEText charset selection and
email.base64mime.body_encode) and of binascii/base64 decoding.

Python strings are modelled as Lean String values; the bytes of a Python
str encoded as UTF-8 are modelled by strBytes.  Machine bytes are Nat
values with an explicit bound of 256.
-/

deriving instance DecidableEq for Except

namespace Cender

/-! ## UTF-8 byte encoding of a string (CPython str.encode) -/

/-- UTF-8 encoding of one code point, as CPython and RFC 3629 define it. -/
def charUTF8 (c : Char) : List Nat :=
  if c.toNat < 128 then [c.toNat]
  else if c.toNat < 2048 then [192 + c.toNat / 64, 128 + c.toNat % 64]
  else if c.toNat < 65536 then
    [224 + c.toNat / 4096, 128 + c.toNat / 64 % 64, 128 + c.toNat % 64]
  else
    [240 + c.toNat / 262144, 128 + c.toNat / 4096 % 64,
      128 + c.toNat / 64 % 64, 128 + c.toNat % 64]

/-- The UTF-8 bytes of a Python str. -/
def strBytes (s : String) : List Nat :=
  s.data.flatMap charUTF8

theorem char_toNat_lt (c : Char) : c.toNat < 1114112 := by
  have h := c.valid
  show c.val.toNat < 1114112
  rcases h with h | ⟨_, h2⟩ <;> omega

theorem charUTF8_lt_256 (c : Char) : ∀ b ∈ charUTF8 c, b < 256 := by
  have hval : c.toNat < 1114112 := char_toNat_lt c
  intro b hb
  unfold charUTF8 at hb
  split at hb
  · simp at hb; omega
  · split at hb
    · simp at hb
      rcases hb with hb | hb <;> omega
    · split at hb
      · simp at hb
        rcases hb with hb | hb | hb <;> omega
      · simp at hb
        rcases hb with hb | hb | hb | hb <;> omega

theorem strBytes_lt_256 (s : String) : ∀ b ∈ strBytes s, b < 256 := by
  intro b hb
  simp only [strBytes, List.mem_flatMap] at hb
  rcases hb with ⟨c, _, hc⟩
  exact charUTF8_lt_256 c b hc

/-! ## Base64 (binascii.b2a_base64 / base64.b64decode) -/

/-- The base64 alphabet character for a sextet (binascii encoding table). -/
def sextetChar (n : Nat) : Nat :=
  if n < 26 then 65 + n
  else if n < 52 then 97 + (n - 26)
  else if n < 62 then 48 + (n - 52)
  else if n = 62 then 43
  else 47

/-- The inverse base64 table used when decoding. -/
def charSextet (c : Nat) : Nat :=
  if 65 ≤ c ∧ c ≤ 90 then c - 65
  else if 97 ≤ c ∧ c ≤ 122 then c - 97 + 26
  else if 48 ≤ c ∧ c ≤ 57 then c - 48 + 52
  else if c = 43 then 62
  else 63

/-- Characters kept by base64.b64decode in its default non-validating mode:
the alphabet together with the padding character 61. -/
def isB64Char (c : Nat) : Bool :=
  (65 ≤ c && c ≤ 90) || (97 ≤ c && c ≤ 122) || (48 ≤ c && c ≤ 57) ||
    c == 43 || c == 47 || c == 61

/-- binascii.b2a_base64 without the trailing newline: three input bytes
become four alphabet characters; a short final group is padded with 61. -/
def b64encodeBytes : List Nat → List Nat
  | a :: b :: c :: rest =>
    sextetChar (a / 4) :: sextetChar (a % 4 * 16 + b / 16) ::
      sextetChar (b % 16 * 4 + c / 64) :: sextetChar (c % 64) ::
      b64encodeBytes rest
  | [a, b] =>
    [sextetChar (a / 4), sextetChar (a % 4 * 16 + b / 16),
      sextetChar (b % 16 * 4), 61]
  | [a] => [sextetChar (a / 4), sextetChar (a % 4 * 16), 61, 61]
  | [] => []

/-- The quartet loop of base64 decoding, applied after filtering: four
characters give three bytes, with the padding character 61 closing the
stream as in binascii.a2b_base64. -/
def b64decodeQuads : List Nat → List Nat
  | w :: x :: y :: z :: rest =>
    if z = 61 then
      if y = 61 then [charSextet w * 4 + charSextet x / 16]
      else [charSextet w * 4 + charSextet x / 16,
            charSextet x % 16 * 16 + charSextet y / 4]
    else
      (charSextet w * 4 + charSextet x / 16) ::
        (charSextet x % 16 * 16 + charSextet y / 4) ::
        (charSextet y % 4 * 64 + charSextet z) ::
        b64decodeQuads rest
  | _ => []

/-- base64.b64decode in its default mode: discard characters outside the
alphabet (newlines in particular), then run the quartet loop. -/
def b64decode (s : List Nat) : List Nat :=
  b64decodeQuads (s.filter isB64Char)

/-- email.base64mime.body_encode with the default maximum line length 76:
the input bytes are split into groups of 57, each group is base64 encoded
as one line, and every line ends with a newline byte. -/
def body_encode (bs : List Nat) : List Nat :=
  if h : bs = [] then []
  else b64encodeBytes (bs.take 57) ++ 10 :: body_encode (bs.drop 57)
termination_by bs.length
decreasing_by
  simp only [List.length_drop]
  have : bs.length ≠ 0 := fun hl => h (List.eq_nil_of_length_eq_zero hl)
  omega

/-! ### Base64 round trip -/

theorem charSextet_sextetChar : ∀ n < 64, charSextet (sextetChar n) = n := by
  decide

theorem sextetChar_ne_61 (n : Nat) : sextetChar n ≠ 61 := by
  unfold sextetChar
  repeat' split
  all_goals omega

theorem isB64Char_sextetChar (n : Nat) : isB64Char (sextetChar n) = true := by
  unfold sextetChar isB64Char
  repeat' split
  all_goals simp
  all_goals omega

theorem b64encodeBytes_all_b64 (bs : List Nat) :
    ∀ c ∈ b64encodeBytes bs, isB64Char c = true := by
  induction bs using b64encodeBytes.induct with
  | case1 a b c rest ih =>
    intro x hx
    simp only [b64encodeBytes, List.mem_cons] at hx
    rcases hx with h | h | h | h | h
    · subst h; exact isB64Char_sextetChar _
    · subst h; exact isB64Char_sextetChar _
    · subst h; exact isB64Char_sextetChar _
    · subst h; exact isB64Char_sextetChar _
    · exact ih x h
  | case2 a b =>
    intro x hx
    simp only [b64encodeBytes, List.mem_cons] at hx
    rcases hx with h | h | h | h | h
    · subst h; exact isB64Char_sextetChar _
    · subst h; exact isB64Char_sextetChar _
    · subst h; exact isB64Char_sextetChar _
    · subst h; decide
    · simp at h
  | case3 a =>
    intro x hx
    simp only [b64encodeBytes, List.mem_cons] at hx
    rcases hx with h | h | h | h | h
    · subst h; exact isB64Char_sextetChar _
    · subst h; exact isB64Char_sextetChar _
    · subst h; decide
    · subst h; decide
    · simp at h
  | case4 =>
    intro x hx
    simp [b64encodeBytes] at hx

theorem filter_b64encodeBytes (bs : List Nat) :
    (b64encodeBytes bs).filter isB64Char = b64encodeBytes bs :=
  List.filter_eq_self.mpr (b64encodeBytes_all_b64 bs)

/-- Decoding the encoding of any byte list recovers the bytes. -/
theorem b64decodeQuads_b64encodeBytes (bs : List Nat)
    (hb : ∀ b ∈ bs, b < 256) :
    b64decodeQuads (b64encodeBytes bs) = bs := by
  induction bs using b64encodeBytes.induct with
  | case1 a b c rest ih =>
    have ha : a < 256 := hb a (by simp)
    have hbb : b < 256 := hb b (by simp)
    have hc : c < 256 := hb c (by simp)
    have hz : sextetChar (c % 64) ≠ 61 := sextetChar_ne_61 _
    simp only [b64encodeBytes, b64decodeQuads, if_neg hz]
    rw [charSextet_sextetChar _ (by omega), charSextet_sextetChar _ (by omega),
      charSextet_sextetChar _ (by omega), charSextet_sextetChar _ (by omega),
      ih (fun x hx => hb x (by simp [hx]))]
    have e1 : a / 4 * 4 + (a % 4 * 16 + b / 16) / 16 = a := by omega
    have e2 : (a % 4 * 16 + b / 16) % 16 * 16 + (b % 16 * 4 + c / 64) / 4 = b := by
      omega
    have e3 : (b % 16 * 4 + c / 64) % 4 * 64 + c % 64 = c := by omega
    rw [e1, e2, e3]
  | case2 a b =>
    have ha : a < 256 := hb a (by simp)
    have hbb : b < 256 := hb b (by simp)
    have hy : sextetChar (b % 16 * 4) ≠ 61 := sextetChar_ne_61 _
    simp only [b64encodeBytes, b64decodeQuads, if_pos rfl, if_neg hy]
    rw [charSextet_sextetChar _ (by omega), charSextet_sextetChar _ (by omega),
      charSextet_sextetChar _ (by omega)]
    have e1 : a / 4 * 4 + (a % 4 * 16 + b / 16) / 16 = a := by omega
    have e2 : (a % 4 * 16 + b / 16) % 16 * 16 + b % 16 * 4 / 4 = b := by omega
    rw [e1, e2]
    simp
  | case3 a =>
    have ha : a < 256 := hb a (by simp)
    simp only [b64encodeBytes, b64decodeQuads, if_pos rfl]
    rw [charSextet_sextetChar _ (by omega), charSextet_sextetChar _ (by omega)]
    have e1 : a / 4 * 4 + a % 4 * 16 / 16 = a := by omega
    rw [e1]
    simp
  | case4 => simp [b64encodeBytes, b64decodeQuads]

/-- On a group whose length is a multiple of three the encoder emits no
padding, so decoding passes through into the rest of the stream. -/
theorem b64decodeQuads_append (rest : List Nat) : ∀ bs : List Nat,
    (∀ b ∈ bs, b < 256) → bs.length % 3 = 0 →
    b64decodeQuads (b64encodeBytes bs ++ rest) = bs ++ b64decodeQuads rest := by
  intro bs
  induction bs using b64encodeBytes.induct with
  | case1 a b c tl ih =>
    intro hb hlen
    have ha : a < 256 := hb a (by simp)
    have hbb : b < 256 := hb b (by simp)
    have hc : c < 256 := hb c (by simp)
    have hz : sextetChar (c % 64) ≠ 61 := sextetChar_ne_61 _
    simp only [b64encodeBytes, List.cons_append, b64decodeQuads, if_neg hz,
      List.append_eq]
    rw [charSextet_sextetChar _ (by omega), charSextet_sextetChar _ (by omega),
      charSextet_sextetChar _ (by omega), charSextet_sextetChar _ (by omega),
      ih (fun x hx => hb x (by simp [hx])) (by simp at hlen ⊢; omega)]
    have e1 : a / 4 * 4 + (a % 4 * 16 + b / 16) / 16 = a := by omega
    have e2 : (a % 4 * 16 + b / 16) % 16 * 16 + (b % 16 * 4 + c / 64) / 4 = b := by
      omega
    have e3 : (b % 16 * 4 + c / 64) % 4 * 64 + c % 64 = c := by omega
    rw [e1, e2, e3]
  | case2 a b => intro _ hlen; simp at hlen
  | case3 a => intro _ hlen; simp at hlen
  | case4 => intro _ _; simp [b64encodeBytes]

theorem filter_b64_line (l : List Nat) (hl : ∀ c ∈ l, isB64Char c = true)
    (rest : List Nat) :
    (l ++ 10 :: rest).filter isB64Char = l ++ rest.filter isB64Char := by
  rw [List.filter_append, List.filter_eq_self.mpr hl]
  simp [List.filter_cons, isB64Char]

/-- Round trip through the line-folded body encoding: base64 decoding (which
discards the newlines) of email.base64mime.body_encode recovers exactly the
input bytes. -/
theorem b64decode_body_encode : ∀ bs : List Nat, (∀ b ∈ bs, b < 256) →
    b64decode (body_encode bs) = bs := by
  intro bs
  induction bs using body_encode.induct with
  | case1 =>
    intro _
    rw [body_encode]
    simp only [dif_pos rfl]
    decide
  | case2 bs h ih =>
    intro hb
    rw [body_encode, dif_neg h]
    unfold b64decode
    rw [filter_b64_line _ (b64encodeBytes_all_b64 _)]
    by_cases hlen : bs.length ≤ 57
    · have hd : bs.drop 57 = [] := List.drop_eq_nil_of_le hlen
      have ht : bs.take 57 = bs := List.take_of_length_le hlen
      have hbe : body_encode (bs.drop 57) = [] := by
        rw [hd, body_encode]
        simp
      rw [ht, hbe]
      simp only [List.filter_nil, List.append_nil]
      exact b64decodeQuads_b64encodeBytes bs hb
    · have h57 : (bs.take 57).length % 3 = 0 := by
        rw [List.length_take]
        omega
      rw [b64decodeQuads_append _ _
        (fun x hx => hb x (List.mem_of_mem_take hx)) h57]
      have hrec := ih (fun x hx => hb x (List.mem_of_mem_drop hx))
      unfold b64decode at hrec
      rw [hrec, List.take_append_drop]

/-! ## The text part of the envelope (email.mime.text.MIMEText) -/

/-- MIMEText with no explicit charset chooses us-ascii when the body
encodes in us-ascii, in which case the content transfer encoding is 7bit;
otherwise it falls back to utf-8, whose body encoding is base64. -/
def mimeTextCTE (bodyBytes : List Nat) : String :=
  if bodyBytes.all (· < 128) then "7bit" else "base64"

/-- The stored payload of the text part: for 7bit the raw body bytes, for
base64 the line-folded base64 transcription of the utf-8 bytes. -/
def textPartPayload (bodyBytes : List Nat) : List Nat :=
  if bodyBytes.all (· < 128) then bodyBytes else body_encode bodyBytes

/-- Decoding a text part as an email reader does, following the declared
content transfer encoding (msg.get_payload with decode set to True). -/
def decodeTextPart (cte : String) (payload : List Nat) : List Nat :=
  if cte = "base64" then b64decode payload else payload

/-! ## The template language and Python str.format -/

/-- One token of a template string: literal text, or a named placeholder
written between braces in the Python source. -/
inductive TTok where
  | lit (s : String)
  | ph (name : String)
deriving DecidableEq

/-- template.format with the two keyword arguments salutation and company,
as create_message calls it: any other placeholder name raises KeyError,
which we model as the error value carrying the unknown name. -/
def pyFormat (tpl : List TTok) (salutation company : String) :
    Except String String :=
  match tpl with
  | [] => Except.ok ""
  | TTok.lit s :: rest =>
    (pyFormat rest salutation company).map (fun t => s ++ t)
  | TTok.ph n :: rest =>
    if n = "salutation" then
      (pyFormat rest salutation company).map (fun t => salutation ++ t)
    else if n = "company" then
      (pyFormat rest salutation company).map (fun t => company ++ t)
    else Except.error n

/-! ## create_message (backend/gmail_service.py) -/

/-- The envelope fields of the MIME message that create_message builds: the
recipient and subject headers, the text part with its content transfer
encoding, and the base64 attachment part with its filename. -/
structure EncodedMessage where
  to_email : String
  subject : String
  text_cte : String
  text_payload : List Nat
  attachment_payload : List Nat
  attachment_filename : String
deriving DecidableEq

/-- create_message: renders the body via template.format, attaches it as a
MIMEText part, base64 encodes the attachment bytes, and returns the
envelope together with the plaintext body.  A KeyError escaping from
format is the error case. -/
def create_message (to_email salutation company : String)
    (template : List TTok) (resume_bytes : List Nat)
    (resume_filename subject : String) :
    Except String (EncodedMessage × String) :=
  match pyFormat template salutation company with
  | Except.error k => Except.error k
  | Except.ok body =>
    Except.ok
      ({ to_email := to_email
         subject := subject
         text_cte := mimeTextCTE (strBytes body)
         text_payload := textPartPayload (strBytes body)
         attachment_payload := body_encode resume_bytes
         attachment_filename := resume_filename }, body)

/-! ## Data model of the dispatch orchestrator
(backend/database.py and backend/services/email_service.py) -/

/-- EmailStatus from backend/database.py. -/
inductive EmailStatus where
  | sent
  | failed
  | skipped
deriving DecidableEq

/-- One row of the recipients table (backend/database.py, Recipient).  The
primary key id is unique and the email column carries a unique constraint. -/
structure Recipient where
  id : Nat
  email : String
  first_name : Option String
  last_name : Option String
  company : Option String
deriving DecidableEq

/-- One row of the email_logs table (backend/database.py, EmailLog), without
the surrogate key and timestamp, which no claim depends on. -/
structure EmailLog where
  user_id : Nat
  recipient_id : Option Nat
  recipient_email : String
  subject : String
  status : EmailStatus
  error_message : Option String
deriving DecidableEq

/-- One JSON line yielded by send_emails_stream: either the terminal error
object, or a per recipient status object. -/
inductive StreamEvent where
  | fatal (message : String)
  | skipped (recipient_id : Nat) (email : String)
  | preview (recipient_id : Nat) (email : String) (body : String)
  | sent (recipient_id : Nat) (email : String)
  | failed (recipient_id : Nat) (email : String) (message : String)
deriving DecidableEq

/-- Result classes of the gender_guesser detector used by guess_salutation. -/
inductive GGender where
  | male
  | mostly_male
  | female
  | mostly_female
  | andy
  | unclassified
deriving DecidableEq

/-- guess_salutation from backend/utils/gender_detector.py.  The name to
gender heuristic itself is external data, passed in as a function. -/
def guess_salutation (detector : String → GGender) (first_name : String) :
    String :=
  if first_name = "" then "Madame, Monsieur"
  else
    match detector first_name with
    | GGender.male => "Monsieur"
    | GGender.mostly_male => "Monsieur"
    | GGender.female => "Madame"
    | GGender.mostly_female => "Madame"
    | _ => "Madame, Monsieur"

/-- The environment a dispatch run reads: the account owner row, the
credential and resume files, the stored template content (the content field
that template_service.get_or_default returns), the id set of the recipients
linked to the owner, the recipients table in its storage order (an SQL
filter with no order clause returns rows in that order), the injected
gender heuristic, and the outcomes of the external Gmail calls
(authenticate_gmail, and the send call per recipient id). -/
structure Env where
  userExists : Bool
  credentialsExist : Bool
  resumePath : Option String
  resumeBytes : List Nat
  templateContent : List TTok
  userRecipientIds : List Nat
  recipientTable : List Recipient
  detector : String → GGender
  authResult : Except String Unit
  sendResult : Nat → Except String Unit

/-- Everything observable about one run of send_emails_stream: the yielded
events in order, the EmailLog rows committed by the run in order, the
transport send calls attempted in order (recipient id and email), and
whether authenticate_gmail was invoked. -/
structure RunResult where
  events : List StreamEvent
  newLogs : List EmailLog
  sends : List (Nat × String)
  authCalled : Bool
deriving DecidableEq

/-- Membership of rid in the sent_recipient_ids set computed at the start of
the loop: some SENT row of this owner carries exactly this recipient id. -/
def logIsSentById (uid rid : Nat) (l : EmailLog) : Bool :=
  l.user_id == uid && l.status == EmailStatus.sent && l.recipient_id == some rid

/-- Membership test in sent_recipient_ids. -/
def alreadySentById (db : List EmailLog) (uid rid : Nat) : Bool :=
  db.any (logIsSentById uid rid)

/-- Membership of an address in the sent_emails set: some SENT row of this
owner carries exactly this recipient email. -/
def logIsSentByEmail (uid : Nat) (em : String) (l : EmailLog) : Bool :=
  l.user_id == uid && l.status == EmailStatus.sent && l.recipient_email == em

/-- Membership test in sent_emails. -/
def alreadySentByEmail (db : List EmailLog) (uid : Nat) (em : String) : Bool :=
  db.any (logIsSentByEmail uid em)

/-- The salutation computed in the loop body of send_emails_stream:
guess_salutation on the first name, with the last name appended when
present. -/
def salutationFor (env : Env) (r : Recipient) : String :=
  let first_name := r.first_name.getD ""
  let last_name := r.last_name.getD ""
  let salutation_text := guess_salutation env.detector first_name
  if last_name ≠ "" then (salutation_text ++ " " ++ last_name).trim
  else salutation_text

/-- What one loop iteration of send_emails_stream produces. -/
structure StepResult where
  event : StreamEvent
  newLogs : List EmailLog
  sends : List (Nat × String)
deriving DecidableEq

/-- One iteration of the send loop of send_emails_stream for one recipient:
the idempotency check against the two sets, then the try block containing
salutation generation, create_message, and either the dry run preview or
the transport send with its success and failure logging.  Any exception in
the try block (a KeyError from template.format, a transport error) takes
the except branch, which writes a FAILED row only outside dry run. -/
def processRecipient (env : Env) (db : List EmailLog) (user_id : Nat)
    (subject resume_path : String) (dry_run : Bool) (r : Recipient) :
    StepResult :=
  if alreadySentById db user_id r.id || alreadySentByEmail db user_id r.email then
    ⟨StreamEvent.skipped r.id r.email, [], []⟩
  else
    match create_message r.email (salutationFor env r) (r.company.getD "")
        env.templateContent env.resumeBytes resume_path subject with
    | Except.error e =>
      if dry_run then ⟨StreamEvent.failed r.id r.email e, [], []⟩
      else
        ⟨StreamEvent.failed r.id r.email e,
          [⟨user_id, some r.id, r.email, subject, EmailStatus.failed, some e⟩],
          []⟩
    | Except.ok pr =>
      if dry_run then ⟨StreamEvent.preview r.id r.email pr.2, [], []⟩
      else
        match env.sendResult r.id with
        | Except.ok _ =>
          ⟨StreamEvent.sent r.id r.email,
            [⟨user_id, some r.id, r.email, subject, EmailStatus.sent, none⟩],
            [(r.id, r.email)]⟩
        | Except.error e =>
          ⟨StreamEvent.failed r.id r.email e,
            [⟨user_id, some r.id, r.email, subject, EmailStatus.failed, some e⟩],
            [(r.id, r.email)]⟩

/-- Accumulated output of the send loop. -/
structure LoopResult where
  events : List StreamEvent
  newLogs : List EmailLog
  sends : List (Nat × String)
deriving DecidableEq

/-- The send loop of send_emails_stream, iterating the resolved recipient
rows in order.  The two already-sent sets are computed from the log state
before the loop, so db is the pre-run table throughout. -/
def runLoop (env : Env) (db : List EmailLog) (user_id : Nat)
    (subject resume_path : String) (dry_run : Bool) :
    List Recipient → LoopResult
  | [] => ⟨[], [], []⟩
  | r :: rest =>
    let s := processRecipient env db user_id subject resume_path dry_run r
    let t := runLoop env db user_id subject resume_path dry_run rest
    ⟨s.event :: t.events, s.newLogs ++ t.newLogs, s.sends ++ t.sends⟩

/-- EmailService.send_emails_stream (backend/services/email_service.py).

The store reads go through env: the account owner lookup (an absent owner
raises, modelled as the Except error), the credentials and resume file
checks, template_service.get_or_default, the linked recipient id set, and
the recipients query filtered by the requested id list, which returns
matching rows in table order.  Event message texts that no claim depends
on (the unlinked recipient list interpolation) are fixed strings.  The
returned newLogs are the rows committed by the run, in commit order; the
log table after the run is db followed by newLogs. -/
def send_emails_stream (env : Env) (db : List EmailLog) (user_id : Nat)
    (recipient_ids : List Nat) (subject : String) (dry_run : Bool) :
    Except String RunResult :=
  if env.userExists = false then Except.error "User not found"
  else if env.credentialsExist = false then
    Except.ok ⟨[StreamEvent.fatal "Gmail credentials not uploaded"], [], [], false⟩
  else
    match env.resumePath with
    | none => Except.ok ⟨[StreamEvent.fatal "Resume not uploaded"], [], [], false⟩
    | some resume_path =>
      if recipient_ids.any (fun i => !(env.userRecipientIds.contains i)) then
        Except.ok
          ⟨[StreamEvent.fatal "Recipients not linked to this user"], [], [], false⟩
      else
        let recipients :=
          env.recipientTable.filter (fun r => recipient_ids.contains r.id)
        if recipients.isEmpty then
          Except.ok ⟨[StreamEvent.fatal "No valid recipients found"], [], [], false⟩
        else if dry_run then
          let out := runLoop env db user_id subject resume_path true recipients
          Except.ok ⟨out.events, out.newLogs, out.sends, false⟩
        else
          match env.authResult with
          | Except.error e =>
            Except.ok
              ⟨[StreamEvent.fatal ("Gmail authentication failed: " ++ e)],
                [], [], true⟩
          | Except.ok _ =>
            let out := runLoop env db user_id subject resume_path false recipients
            Except.ok ⟨out.events, out.newLogs, out.sends, true⟩

/-- The recipient a stream event reports on, none for the terminal error. -/
def eventRecipient : StreamEvent → Option Nat
  | StreamEvent.fatal _ => none
  | StreamEvent.skipped rid _ => some rid
  | StreamEvent.preview rid _ _ => some rid
  | StreamEvent.sent rid _ => some rid
  | StreamEvent.failed rid _ _ => some rid

/-- Number of SENT rows of the log for one account owner and recipient id
pair. -/
def countSent (db : List EmailLog) (uid rid : Nat) : Nat :=
  (db.filter (logIsSentById uid rid)).length

/-- One dispatch invocation: its environment and request. -/
structure DispatchCall where
  env : Env
  user_id : Nat
  recipient_ids : List Nat
  subject : String
  dry_run : Bool

/-- Apply one dispatch run to the log table: the run reads the table and
its committed rows are appended; a run that raises commits nothing. -/
def runOnce (c : DispatchCall) (db : List EmailLog) : List EmailLog :=
  match send_emails_stream c.env db c.user_id c.recipient_ids c.subject
      c.dry_run with
  | Except.ok r => db ++ r.newLogs
  | Except.error _ => db

/-- Apply a sequence of dispatch runs to the log table. -/
def runMany (cs : List DispatchCall) (db : List EmailLog) : List EmailLog :=
  cs.foldl (fun d c => runOnce c d) db

/-! ### Structure of the loop output -/

theorem runLoop_events (env : Env) (db : List EmailLog) (uid : Nat)
    (subj p : String) (dr : Bool) (rs : List Recipient) :
    (runLoop env db uid subj p dr rs).events =
      rs.map (fun r => (processRecipient env db uid subj p dr r).event) := by
  induction rs with
  | nil => rfl
  | cons r rest ih => simp [runLoop, ih]

theorem runLoop_newLogs (env : Env) (db : List EmailLog) (uid : Nat)
    (subj p : String) (dr : Bool) (rs : List Recipient) :
    (runLoop env db uid subj p dr rs).newLogs =
      rs.flatMap (fun r => (processRecipient env db uid subj p dr r).newLogs) := by
  induction rs with
  | nil => rfl
  | cons r rest ih => simp [runLoop, ih]

theorem runLoop_sends (env : Env) (db : List EmailLog) (uid : Nat)
    (subj p : String) (dr : Bool) (rs : List Recipient) :
    (runLoop env db uid subj p dr rs).sends =
      rs.flatMap (fun r => (processRecipient env db uid subj p dr r).sends) := by
  induction rs with
  | nil => rfl
  | cons r rest ih => simp [runLoop, ih]

/-! ### Structure of one step -/

theorem processRecipient_skip (env : Env) (db : List EmailLog) (uid : Nat)
    (subj p : String) (dr : Bool) (r : Recipient)
    (h : (alreadySentById db uid r.id || alreadySentByEmail db uid r.email) = true) :
    processRecipient env db uid subj p dr r =
      ⟨StreamEvent.skipped r.id r.email, [], []⟩ := by
  unfold processRecipient
  rw [if_pos h]

theorem processRecipient_event_recipient (env : Env) (db : List EmailLog)
    (uid : Nat) (subj p : String) (dr : Bool) (r : Recipient) :
    eventRecipient (processRecipient env db uid subj p dr r).event = some r.id := by
  unfold processRecipient
  repeat' split
  all_goals rfl

theorem processRecipient_newLogs_shape (env : Env) (db : List EmailLog)
    (uid : Nat) (subj p : String) (dr : Bool) (r : Recipient) :
    ∀ l ∈ (processRecipient env db uid subj p dr r).newLogs,
      l.user_id = uid ∧ l.recipient_id = some r.id ∧
        l.recipient_email = r.email ∧ l.subject = subj := by
  unfold processRecipient
  repeat' split
  all_goals intro l hl
  all_goals simp_all

theorem processRecipient_sends_shape (env : Env) (db : List EmailLog)
    (uid : Nat) (subj p : String) (dr : Bool) (r : Recipient) :
    ∀ s ∈ (processRecipient env db uid subj p dr r).sends,
      s = (r.id, r.email) := by
  unfold processRecipient
  repeat' split
  all_goals intro s hs
  all_goals simp_all

theorem processRecipient_newLogs_length (env : Env) (db : List EmailLog)
    (uid : Nat) (subj p : String) (dr : Bool) (r : Recipient) :
    (processRecipient env db uid subj p dr r).newLogs.length ≤ 1 := by
  unfold processRecipient
  repeat' split
  all_goals simp

theorem processRecipient_dry_run (env : Env) (db : List EmailLog)
    (uid : Nat) (subj p : String) (r : Recipient) :
    (processRecipient env db uid subj p true r).newLogs = [] ∧
      (processRecipient env db uid subj p true r).sends = [] := by
  unfold processRecipient
  repeat' split
  all_goals simp_all

theorem runLoop_dry (env : Env) (db : List EmailLog) (uid : Nat)
    (subj p : String) (rs : List Recipient) :
    (runLoop env db uid subj p true rs).newLogs = [] ∧
      (runLoop env db uid subj p true rs).sends = [] := by
  induction rs with
  | nil => exact ⟨rfl, rfl⟩
  | cons r rest ih =>
    have h := processRecipient_dry_run env db uid subj p r
    simp [runLoop, h.1, h.2, ih.1, ih.2]

/-! ### Counting SENT rows -/

theorem countSent_append (d1 d2 : List EmailLog) (uid rid : Nat) :
    countSent (d1 ++ d2) uid rid = countSent d1 uid rid + countSent d2 uid rid := by
  simp [countSent, List.filter_append]

theorem alreadySentById_of_countSent_pos (db : List EmailLog) (uid rid : Nat)
    (h : 0 < countSent db uid rid) : alreadySentById db uid rid = true := by
  unfold countSent at h
  rcases List.exists_mem_of_length_pos h with ⟨l, hl⟩
  rcases List.mem_filter.mp hl with ⟨hmem, hpred⟩
  exact List.any_eq_true.mpr ⟨l, hmem, hpred⟩

theorem countSent_step_le_one (env : Env) (db : List EmailLog) (uid : Nat)
    (subj p : String) (dr : Bool) (r : Recipient) (u rid : Nat) :
    countSent (processRecipient env db uid subj p dr r).newLogs u rid ≤ 1 :=
  le_trans (List.length_filter_le _ _)
    (processRecipient_newLogs_length env db uid subj p dr r)

theorem countSent_step_ne (env : Env) (db : List EmailLog) (uid : Nat)
    (subj p : String) (dr : Bool) (r : Recipient) (u rid : Nat)
    (h : r.id ≠ rid) :
    countSent (processRecipient env db uid subj p dr r).newLogs u rid = 0 := by
  unfold countSent
  rw [List.filter_eq_nil_iff.mpr, List.length_nil]
  intro l hl
  have hs := processRecipient_newLogs_shape env db uid subj p dr r l hl
  simp [logIsSentById, hs.2.1, h]

theorem countSent_step_other_user (env : Env) (db : List EmailLog) (uid : Nat)
    (subj p : String) (dr : Bool) (r : Recipient) (u rid : Nat)
    (h : u ≠ uid) :
    countSent (processRecipient env db uid subj p dr r).newLogs u rid = 0 := by
  unfold countSent
  rw [List.filter_eq_nil_iff.mpr, List.length_nil]
  intro l hl
  have hs := processRecipient_newLogs_shape env db uid subj p dr r l hl
  simp [logIsSentById, hs.1]
  intro hu
  exact absurd hu.symm h

theorem countSent_runLoop_other_user (env : Env) (db : List EmailLog)
    (uid : Nat) (subj p : String) (dr : Bool) (rs : List Recipient)
    (u rid : Nat) (h : u ≠ uid) :
    countSent (runLoop env db uid subj p dr rs).newLogs u rid = 0 := by
  induction rs with
  | nil => rfl
  | cons r rest ih =>
    simp only [runLoop, countSent_append]
    rw [countSent_step_other_user env db uid subj p dr r u rid h, ih]

theorem countSent_runLoop_not_mem (env : Env) (db : List EmailLog) (uid : Nat)
    (subj p : String) (dr : Bool) (rs : List Recipient) (u rid : Nat)
    (h : rid ∉ rs.map Recipient.id) :
    countSent (runLoop env db uid subj p dr rs).newLogs u rid = 0 := by
  induction rs with
  | nil => rfl
  | cons r rest ih =>
    simp only [runLoop, countSent_append]
    simp only [List.map_cons, List.mem_cons, not_or] at h
    rw [countSent_step_ne env db uid subj p dr r u rid (fun he => h.1 he.symm),
      ih h.2]

theorem countSent_runLoop_already (env : Env) (db : List EmailLog) (uid : Nat)
    (subj p : String) (dr : Bool) (rs : List Recipient) (rid : Nat)
    (h : alreadySentById db uid rid = true) :
    countSent (runLoop env db uid subj p dr rs).newLogs uid rid = 0 := by
  induction rs with
  | nil => rfl
  | cons r rest ih =>
    simp only [runLoop, countSent_append]
    rw [ih, Nat.add_zero]
    by_cases hid : r.id = rid
    · subst hid
      rw [processRecipient_skip env db uid subj p dr r (by simp [h])]
      rfl
    · exact countSent_step_ne env db uid subj p dr r uid rid hid

theorem countSent_runLoop_le_one (env : Env) (db : List EmailLog) (uid : Nat)
    (subj p : String) (dr : Bool) (rs : List Recipient) (u rid : Nat)
    (hnodup : (rs.map Recipient.id).Nodup) :
    countSent (runLoop env db uid subj p dr rs).newLogs u rid ≤ 1 := by
  induction rs with
  | nil => simp [runLoop, countSent]
  | cons r rest ih =>
    simp only [List.map_cons, List.nodup_cons] at hnodup
    simp only [runLoop, countSent_append]
    by_cases hid : r.id = rid
    · subst hid
      rw [countSent_runLoop_not_mem env db uid subj p dr rest u r.id hnodup.1]
      simpa using countSent_step_le_one env db uid subj p dr r u r.id
    · rw [countSent_step_ne env db uid subj p dr r u rid hid]
      simpa using ih hnodup.2

theorem nodup_filter_ids (tbl : List Recipient) (q : Recipient → Bool)
    (h : (tbl.map Recipient.id).Nodup) :
    ((tbl.filter q).map Recipient.id).Nodup :=
  ((List.filter_sublist tbl).map Recipient.id).nodup h

/-! ### Shapes of a whole run -/

/-- Recognizer of the terminal error object. -/
def isFatalEv : StreamEvent → Bool
  | StreamEvent.fatal _ => true
  | _ => false

/-- Success recognizer for a Python call that may raise. -/
def exceptIsOk {ε α : Type _} : Except ε α → Bool
  | Except.ok _ => true
  | Except.error _ => false

theorem send_eq_loop_dry (env : Env) (db : List EmailLog) (uid : Nat)
    (L : List Nat) (subj p : String)
    (hu : env.userExists = true) (hc : env.credentialsExist = true)
    (hp : env.resumePath = some p)
    (hv : L.any (fun i => !(env.userRecipientIds.contains i)) = false)
    (hne : (env.recipientTable.filter (fun r => L.contains r.id)).isEmpty
      = false) :
    send_emails_stream env db uid L subj true =
      Except.ok
        ⟨(runLoop env db uid subj p true
            (env.recipientTable.filter (fun r => L.contains r.id))).events,
          (runLoop env db uid subj p true
            (env.recipientTable.filter (fun r => L.contains r.id))).newLogs,
          (runLoop env db uid subj p true
            (env.recipientTable.filter (fun r => L.contains r.id))).sends,
          false⟩ := by
  have hv2 : ¬(L.any (fun i => !(env.userRecipientIds.contains i)) = true) := by
    simpa using hv
  have hne2 : ¬((env.recipientTable.filter
      (fun r => L.contains r.id)).isEmpty = true) := by
    simpa using hne
  unfold send_emails_stream
  rw [hu, hc, hp]
  simp only [Bool.true_eq_false, if_false]
  rw [if_neg hv2, if_neg hne2, if_pos trivial]

theorem send_eq_loop_auth (env : Env) (db : List EmailLog) (uid : Nat)
    (L : List Nat) (subj p : String)
    (hu : env.userExists = true) (hc : env.credentialsExist = true)
    (hp : env.resumePath = some p)
    (hv : L.any (fun i => !(env.userRecipientIds.contains i)) = false)
    (hne : (env.recipientTable.filter (fun r => L.contains r.id)).isEmpty
      = false)
    (ha : env.authResult = Except.ok ()) :
    send_emails_stream env db uid L subj false =
      Except.ok
        ⟨(runLoop env db uid subj p false
            (env.recipientTable.filter (fun r => L.contains r.id))).events,
          (runLoop env db uid subj p false
            (env.recipientTable.filter (fun r => L.contains r.id))).newLogs,
          (runLoop env db uid subj p false
            (env.recipientTable.filter (fun r => L.contains r.id))).sends,
          true⟩ := by
  have hv2 : ¬(L.any (fun i => !(env.userRecipientIds.contains i)) = true) := by
    simpa using hv
  have hne2 : ¬((env.recipientTable.filter
      (fun r => L.contains r.id)).isEmpty = true) := by
    simpa using hne
  unfold send_emails_stream
  rw [hu, hc, hp]
  simp only [Bool.true_eq_false, if_false]
  rw [if_neg hv2, if_neg hne2, if_neg (by simp), ha]

/-- Whatever branch a run takes, its committed rows are either none or
those of the send loop over the resolved recipient rows. -/
theorem send_newLogs_cases (env : Env) (db : List EmailLog) (uid : Nat)
    (L : List Nat) (subj : String) (dr : Bool) (res : RunResult)
    (hrun : send_emails_stream env db uid L subj dr = Except.ok res) :
    res.newLogs = [] ∨
      ∃ p drr, res.newLogs =
        (runLoop env db uid subj p drr
          (env.recipientTable.filter (fun r => L.contains r.id))).newLogs := by
  unfold send_emails_stream at hrun
  dsimp only at hrun
  repeat' split at hrun
  all_goals first
    | (left; cases hrun; rfl)
    | (right; cases hrun; exact ⟨_, _, rfl⟩)
    | (cases hrun)

/-! ## Claim theorems for the orchestrator -/

/-- C8: if any requested recipient id is not linked to the account owner,
the run yields a single terminal error event, commits no DeliveryRecord,
and attempts no transport send. -/
theorem unlinked_recipient_aborts (env : Env) (db : List EmailLog)
    (uid : Nat) (L : List Nat) (subj : String) (dr : Bool) (res : RunResult)
    (hu : env.userExists = true)
    (hbad : L.any (fun i => !(env.userRecipientIds.contains i)) = true)
    (hrun : send_emails_stream env db uid L subj dr = Except.ok res) :
    res.events.length = 1 ∧ res.events.all isFatalEv = true ∧
      res.newLogs = [] ∧ res.sends = [] := by
  unfold send_emails_stream at hrun
  dsimp only at hrun
  repeat' split at hrun
  all_goals first
    | (cases hrun <;> exact ⟨rfl, rfl, rfl, rfl⟩)
    | (exact absurd hbad (by assumption))

/-- C9: a dry run never commits a DeliveryRecord, never calls the
transport, and never invokes authenticate_gmail; the log table after the
run equals the table before. -/
theorem dry_run_pure (env : Env) (db : List EmailLog) (uid : Nat)
    (L : List Nat) (subj : String) (res : RunResult)
    (hrun : send_emails_stream env db uid L subj true = Except.ok res) :
    res.newLogs = [] ∧ res.sends = [] ∧ res.authCalled = false ∧
      db ++ res.newLogs = db := by
  unfold send_emails_stream at hrun
  dsimp only at hrun
  repeat' split at hrun
  all_goals first
    | (cases hrun <;> exact ⟨rfl, rfl, rfl, by simp⟩)
    | (cases hrun <;>
        exact ⟨(runLoop_dry _ _ _ _ _ _).1, (runLoop_dry _ _ _ _ _ _).2, rfl,
          by simp [(runLoop_dry _ _ _ _ _ _).1]⟩)
    | simp_all

/-- One run preserves the bound of one SENT row per owner and recipient
pair: a pair already recorded as SENT is skipped, and the loop visits each
recipient row at most once. -/
theorem countSent_after_run (env : Env) (db : List EmailLog) (uid : Nat)
    (L : List Nat) (subj : String) (dr : Bool) (res : RunResult)
    (u rid : Nat)
    (hnodup : (env.recipientTable.map Recipient.id).Nodup)
    (hrun : send_emails_stream env db uid L subj dr = Except.ok res)
    (hle : countSent db u rid ≤ 1) :
    countSent (db ++ res.newLogs) u rid ≤ 1 := by
  rw [countSent_append]
  rcases send_newLogs_cases env db uid L subj dr res hrun with hnil | ⟨p, drr, hloop⟩
  · rw [hnil]
    simpa using hle
  · rw [hloop]
    by_cases huid : u = uid
    · subst huid
      by_cases hpos : 0 < countSent db u rid
      · rw [countSent_runLoop_already env db u subj p drr _ rid
          (alreadySentById_of_countSent_pos db u rid hpos)]
        simpa using hle
      · have h0 : countSent db u rid = 0 := by omega
        rw [h0, Nat.zero_add]
        exact countSent_runLoop_le_one env db u subj p drr _ u rid
          (nodup_filter_ids env.recipientTable _ hnodup)
    · rw [countSent_runLoop_other_user env db uid subj p drr _ u rid huid]
      simpa using hle

/-- C5: across any sequence of dispatch runs, the log never accumulates
more than one SENT row per account owner and recipient id pair, provided
it started within that bound (in particular from an empty log). -/
theorem at_most_one_sent_per_pair (cs : List DispatchCall)
    (db : List EmailLog)
    (hn : ∀ c ∈ cs, (c.env.recipientTable.map Recipient.id).Nodup)
    (h0 : ∀ u rid, countSent db u rid ≤ 1) :
    ∀ u rid, countSent (runMany cs db) u rid ≤ 1 := by
  induction cs generalizing db with
  | nil => simpa [runMany] using h0
  | cons c rest ih =>
    have h1 : ∀ u rid, countSent (runOnce c db) u rid ≤ 1 := by
      intro u rid
      unfold runOnce
      cases hr : send_emails_stream c.env db c.user_id c.recipient_ids
          c.subject c.dry_run with
      | error e => exact h0 u rid
      | ok res =>
        exact countSent_after_run c.env db c.user_id c.recipient_ids
          c.subject c.dry_run res u rid (hn c (by simp)) hr (h0 u rid)
    have hrest : ∀ c2 ∈ rest, (c2.env.recipientTable.map Recipient.id).Nodup :=
      fun c2 hc2 => hn c2 (by simp [hc2])
    intro u rid
    have := ih (runOnce c db) hrest h1 u rid
    simpa [runMany] using this

/-- C4: a recipient with a prior SENT record for this owner, keyed by its
id or by its raw address, is reported as Skipped and gets neither a
transport call nor a new DeliveryRecord. -/
theorem already_sent_skipped (env : Env) (db : List EmailLog) (uid : Nat)
    (L : List Nat) (subj p : String) (dr : Bool) (r : Recipient)
    (res : RunResult)
    (hu : env.userExists = true) (hc : env.credentialsExist = true)
    (hp : env.resumePath = some p)
    (hv : L.any (fun i => !(env.userRecipientIds.contains i)) = false)
    (hnodup : (env.recipientTable.map Recipient.id).Nodup)
    (hmem : r ∈ env.recipientTable) (hL : L.contains r.id = true)
    (hsent : (alreadySentById db uid r.id ||
      alreadySentByEmail db uid r.email) = true)
    (hauth : dr = true ∨ env.authResult = Except.ok ())
    (hrun : send_emails_stream env db uid L subj dr = Except.ok res) :
    StreamEvent.skipped r.id r.email ∈ res.events ∧
      (∀ s ∈ res.sends, s.1 ≠ r.id) ∧
      (∀ l ∈ res.newLogs, l.recipient_id ≠ some r.id) := by
  have hrin : r ∈ env.recipientTable.filter (fun x => L.contains x.id) :=
    List.mem_filter.mpr ⟨hmem, hL⟩
  have hne : (env.recipientTable.filter
      (fun x => L.contains x.id)).isEmpty = false := by
    rcases hq : env.recipientTable.filter (fun x => L.contains x.id) with _ | _
    · rw [hq] at hrin; simp at hrin
    · rw [hq]; rfl
  have hnodup2 := nodup_filter_ids env.recipientTable
    (fun x => L.contains x.id) hnodup
  have hmain : ∀ drr : Bool,
      (∀ s ∈ (runLoop env db uid subj p drr
          (env.recipientTable.filter (fun x => L.contains x.id))).sends,
        s.1 ≠ r.id) ∧
      (∀ l ∈ (runLoop env db uid subj p drr
          (env.recipientTable.filter (fun x => L.contains x.id))).newLogs,
        l.recipient_id ≠ some r.id) ∧
      StreamEvent.skipped r.id r.email ∈ (runLoop env db uid subj p drr
          (env.recipientTable.filter (fun x => L.contains x.id))).events := by
    intro drr
    refine ⟨?_, ?_, ?_⟩
    · rw [runLoop_sends]
      intro s hs
      rcases List.mem_flatMap.mp hs with ⟨x, hx, hsx⟩
      have hshape := processRecipient_sends_shape env db uid subj p drr x s hsx
      intro hcontra
      have hxid : x.id = r.id := by rw [hshape] at hcontra; exact hcontra
      have hxr : x = r :=
        List.inj_on_of_nodup_map hnodup2 hx hrin hxid
      subst hxr
      rw [processRecipient_skip env db uid subj p drr x hsent] at hsx
      simp at hsx
    · rw [runLoop_newLogs]
      intro l hl
      rcases List.mem_flatMap.mp hl with ⟨x, hx, hlx⟩
      have hshape := processRecipient_newLogs_shape env db uid subj p drr x l hlx
      intro hcontra
      have hxid : x.id = r.id := by
        have := hshape.2.1
        rw [this] at hcontra
        exact Option.some_injective _ hcontra
      have hxr : x = r :=
        List.inj_on_of_nodup_map hnodup2 hx hrin hxid
      subst hxr
      rw [processRecipient_skip env db uid subj p drr x hsent] at hlx
      simp at hlx
    · rw [runLoop_events]
      refine List.mem_map.mpr ⟨r, hrin, ?_⟩
      rw [processRecipient_skip env db uid subj p drr r hsent]
  by_cases hdr : dr = true
  · subst hdr
    rw [send_eq_loop_dry env db uid L subj p hu hc hp hv hne] at hrun
    cases hrun
    exact ⟨(hmain true).2.2, (hmain true).1, (hmain true).2.1⟩
  · have hdr2 : dr = false := by
      cases dr
      · rfl
      · exact absurd rfl hdr
    subst hdr2
    rcases hauth with h | ha
    · exact absurd h (by simp)
    · rw [send_eq_loop_auth env db uid L subj p hu hc hp hv hne ha] at hrun
      cases hrun
      exact ⟨(hmain false).2.2, (hmain false).1, (hmain false).2.1⟩

/-- C6 amended: the per recipient events of a run that reaches the send
loop are exactly one per resolved recipient row, in the order the
recipient store returns them (table order), which is not in general the
order of the requested id list. -/
theorem events_follow_store_order (env : Env) (db : List EmailLog)
    (uid : Nat) (L : List Nat) (subj p : String) (dr : Bool) (res : RunResult)
    (hu : env.userExists = true) (hc : env.credentialsExist = true)
    (hp : env.resumePath = some p)
    (hv : L.any (fun i => !(env.userRecipientIds.contains i)) = false)
    (hne : (env.recipientTable.filter
      (fun r => L.contains r.id)).isEmpty = false)
    (hauth : dr = true ∨ env.authResult = Except.ok ())
    (hrun : send_emails_stream env db uid L subj dr = Except.ok res) :
    res.events.map eventRecipient =
      (env.recipientTable.filter (fun r => L.contains r.id)).map
        (fun r => some r.id) := by
  have hmap : ∀ drr : Bool,
      ((runLoop env db uid subj p drr
        (env.recipientTable.filter (fun r => L.contains r.id))).events).map
          eventRecipient =
      (env.recipientTable.filter (fun r => L.contains r.id)).map
        (fun r => some r.id) := by
    intro drr
    rw [runLoop_events, List.map_map]
    exact List.map_congr_left fun x _ =>
      processRecipient_event_recipient env db uid subj p drr x
  by_cases hdr : dr = true
  · subst hdr
    rw [send_eq_loop_dry env db uid L subj p hu hc hp hv hne] at hrun
    cases hrun
    exact hmap true
  · have hdr2 : dr = false := by
      cases dr
      · rfl
      · exact absurd rfl hdr
    subst hdr2
    rcases hauth with h | ha
    · exact absurd h (by simp)
    · rw [send_eq_loop_auth env db uid L subj p hu hc hp hv hne ha] at hrun
      cases hrun
      exact hmap false

theorem processRecipient_sent_shape (env : Env) (db : List EmailLog)
    (uid : Nat) (subj p : String) (r : Recipient)
    (hsk : (alreadySentById db uid r.id ||
      alreadySentByEmail db uid r.email) = false)
    (hfmt : exceptIsOk (pyFormat env.templateContent (salutationFor env r)
      (r.company.getD "")) = true)
    (hsend : env.sendResult r.id = Except.ok ()) :
    processRecipient env db uid subj p false r =
      ⟨StreamEvent.sent r.id r.email,
        [⟨uid, some r.id, r.email, subj, EmailStatus.sent, none⟩],
        [(r.id, r.email)]⟩ := by
  have hpf : ∃ body, pyFormat env.templateContent (salutationFor env r)
      (r.company.getD "") = Except.ok body := by
    cases hq : pyFormat env.templateContent (salutationFor env r)
        (r.company.getD "") with
    | error e => rw [hq] at hfmt; simp [exceptIsOk] at hfmt
    | ok body => exact ⟨body, rfl⟩
  rcases hpf with ⟨body, hbody⟩
  unfold processRecipient
  simp [hsk, create_message, hbody, hsend]

theorem processRecipient_failed_shape (env : Env) (db : List EmailLog)
    (uid : Nat) (subj p : String) (r : Recipient) (e : String)
    (hsk : (alreadySentById db uid r.id ||
      alreadySentByEmail db uid r.email) = false)
    (hfmt : exceptIsOk (pyFormat env.templateContent (salutationFor env r)
      (r.company.getD "")) = true)
    (hsend : env.sendResult r.id = Except.error e) :
    processRecipient env db uid subj p false r =
      ⟨StreamEvent.failed r.id r.email e,
        [⟨uid, some r.id, r.email, subj, EmailStatus.failed, some e⟩],
        [(r.id, r.email)]⟩ := by
  have hpf : ∃ body, pyFormat env.templateContent (salutationFor env r)
      (r.company.getD "") = Except.ok body := by
    cases hq : pyFormat env.templateContent (salutationFor env r)
        (r.company.getD "") with
    | error e2 => rw [hq] at hfmt; simp [exceptIsOk] at hfmt
    | ok body => exact ⟨body, rfl⟩
  rcases hpf with ⟨body, hbody⟩
  unfold processRecipient
  simp [hsk, create_message, hbody, hsend]

/-- C7: with three fresh recipients A, B, C where only the transport call
for B fails, the run completes with the events Sent A, Failed B, Sent C and
commits three DeliveryRecords with statuses SENT, FAILED, SENT; the
failure for B aborts nothing. -/
theorem failure_isolation (env : Env) (db : List EmailLog) (uid : Nat)
    (subj p errB : String) (A B C : Recipient) (res : RunResult)
    (hu : env.userExists = true) (hc : env.credentialsExist = true)
    (hp : env.resumePath = some p)
    (htbl : env.recipientTable = [A, B, C])
    (hv : ([A.id, B.id, C.id].any
      (fun i => !(env.userRecipientIds.contains i))) = false)
    (hA : (alreadySentById db uid A.id ||
      alreadySentByEmail db uid A.email) = false)
    (hB : (alreadySentById db uid B.id ||
      alreadySentByEmail db uid B.email) = false)
    (hC : (alreadySentById db uid C.id ||
      alreadySentByEmail db uid C.email) = false)
    (hfA : exceptIsOk (pyFormat env.templateContent (salutationFor env A)
      (A.company.getD "")) = true)
    (hfB : exceptIsOk (pyFormat env.templateContent (salutationFor env B)
      (B.company.getD "")) = true)
    (hfC : exceptIsOk (pyFormat env.templateContent (salutationFor env C)
      (C.company.getD "")) = true)
    (hsA : env.sendResult A.id = Except.ok ())
    (hsB : env.sendResult B.id = Except.error errB)
    (hsC : env.sendResult C.id = Except.ok ())
    (ha : env.authResult = Except.ok ())
    (hrun : send_emails_stream env db uid [A.id, B.id, C.id] subj false =
      Except.ok res) :
    res.events = [StreamEvent.sent A.id A.email,
      StreamEvent.failed B.id B.email errB,
      StreamEvent.sent C.id C.email] ∧
    res.newLogs.map (fun l => l.status) =
      [EmailStatus.sent, EmailStatus.failed, EmailStatus.sent] ∧
    res.sends = [(A.id, A.email), (B.id, B.email), (C.id, C.email)] := by
  have hfilter : env.recipientTable.filter
      (fun r => [A.id, B.id, C.id].contains r.id) = [A, B, C] := by
    rw [htbl]
    simp [List.filter]
  have hne : (env.recipientTable.filter
      (fun r => [A.id, B.id, C.id].contains r.id)).isEmpty = false := by
    rw [hfilter]
    rfl
  rw [send_eq_loop_auth env db uid [A.id, B.id, C.id] subj p hu hc hp hv hne ha]
    at hrun
  cases hrun
  rw [hfilter]
  simp only [runLoop,
    processRecipient_sent_shape env db uid subj p A hA hfA hsA,
    processRecipient_failed_shape env db uid subj p B errB hB hfB hsB,
    processRecipient_sent_shape env db uid subj p C hC hfC hsC]
  simp

/-- C10: a request whose id list resolves to no recipient rows yields
exactly the single terminal error object with the message
No valid recipients found; nothing is authenticated, sent, or committed. -/
theorem no_valid_recipients_error (env : Env) (db : List EmailLog)
    (uid : Nat) (L : List Nat) (subj : String) (dr : Bool) (res : RunResult)
    (hu : env.userExists = true) (hc : env.credentialsExist = true)
    (hp : env.resumePath.isSome = true)
    (hv : L.any (fun i => !(env.userRecipientIds.contains i)) = false)
    (hempty : env.recipientTable.filter (fun r => L.contains r.id) = [])
    (hrun : send_emails_stream env db uid L subj dr = Except.ok res) :
    res.events = [StreamEvent.fatal "No valid recipients found"] ∧
      res.newLogs = [] ∧ res.sends = [] ∧ res.authCalled = false := by
  rcases Option.isSome_iff_exists.mp hp with ⟨p, hp'⟩
  unfold send_emails_stream at hrun
  rw [hu, hp'] at hrun
  simp only [Bool.true_eq_false, if_false, hc, hv, hempty] at hrun
  simp only [List.isEmpty_nil, if_true] at hrun
  cases hrun
  exact ⟨rfl, rfl, rfl, rfl⟩

/-! ## Claim theorems for the message encoder -/

/-- C1 counterexample: create_message on a template whose rendered body is
pure ASCII produces a 7bit text part, not base64, so the claim fails for
ASCII only bodies. -/
theorem create_message_ascii_7bit_cex :
    (create_message "test@example.com" "Mr Test" "ACME"
        [TTok.lit "Hello"] [] "cv.pdf" "Subject").map
      (fun pr => pr.1.text_cte) = Except.ok "7bit" ∧
    (create_message "test@example.com" "Mr Test" "ACME"
        [TTok.lit "Hello"] [] "cv.pdf" "Subject").map
      (fun pr => pr.1.text_cte) ≠ Except.ok "base64" := by
  constructor
  · decide
  · decide

/-- C1 amended: the text part is never quoted-printable; its transfer
encoding is base64 exactly when the rendered body contains a non-ASCII
character, and 7bit when the body is pure ASCII. -/
theorem create_message_text_cte (to_email salutation company : String)
    (template : List TTok) (resume_bytes : List Nat) (fn subj : String) :
    (create_message to_email salutation company template resume_bytes
        fn subj).map (fun pr => pr.1.text_cte) =
      (create_message to_email salutation company template resume_bytes
        fn subj).map (fun pr =>
          if (strBytes pr.2).all (· < 128) then "7bit" else "base64") ∧
    (create_message to_email salutation company template resume_bytes
        fn subj).map (fun pr => pr.1.text_cte) ≠
      Except.ok "quoted-printable" := by
  unfold create_message
  cases pyFormat template salutation company with
  | error k => exact ⟨rfl, by simp [Except.map]⟩
  | ok body =>
    constructor
    · simp [Except.map, mimeTextCTE]
    · simp only [Except.map, mimeTextCTE]
      by_cases hall : (strBytes body).all (· < 128)
      · rw [if_pos hall]; simp
      · rw [if_neg hall]; simp

/-- C2: decoding the text part of the envelope returned by create_message,
following its declared transfer encoding, yields byte for byte the UTF-8
bytes of the plaintext body returned alongside it, for every template,
including multi-byte UTF-8 bodies and lines longer than 76 characters.  In
particular the decoded text has its line breaks exactly where the body
does, so no word is ever split by an inserted break. -/
theorem create_message_roundtrip (to_email salutation company : String)
    (template : List TTok) (resume_bytes : List Nat) (fn subj : String) :
    (create_message to_email salutation company template resume_bytes
        fn subj).map
      (fun pr => decodeTextPart pr.1.text_cte pr.1.text_payload) =
      (create_message to_email salutation company template resume_bytes
        fn subj).map (fun pr => strBytes pr.2) := by
  unfold create_message
  cases pyFormat template salutation company with
  | error k => rfl
  | ok body =>
    simp only [Except.map]
    congr 1
    unfold decodeTextPart mimeTextCTE textPartPayload
    by_cases hall : (strBytes body).all (· < 128)
    · rw [if_pos hall, if_pos hall]
      simp
    · rw [if_neg hall, if_neg hall, if_pos rfl]
      exact b64decode_body_encode (strBytes body) (strBytes_lt_256 body)

/-- C3: evaluation at the failing input of the repository test
test_company_name_placeholder: a template using the company_name
placeholder makes template.format raise KeyError, so create_message raises
instead of substituting the company value; the salutation and company
placeholders alone do substitute exactly as the claim describes. -/
theorem create_message_company_name_keyerror :
    create_message "test@example.com" "Mr Test" "ACME Inc"
        [TTok.lit "Working at ", TTok.ph "company_name", TTok.lit "."]
        [] "cv.pdf" "Test" = Except.error "company_name" ∧
    (create_message "test@example.com" "Madame Dupont" "Acme"
        [TTok.lit "Bonjour ", TTok.ph "salutation", TTok.lit ", ",
          TTok.ph "company"] [] "cv.pdf" "Test").map (fun pr => pr.2) =
      Except.ok "Bonjour Madame Dupont, Acme" := by
  constructor
  · decide
  · decide

/-! ## Concrete fixtures for counterexamples and witnesses -/

def recA : Recipient := ⟨1, "a@example.com", none, none, none⟩

def recB : Recipient := ⟨2, "b@example.com", none, none, none⟩

def recC : Recipient := ⟨3, "c@example.com", none, none, none⟩

def asciiTemplate : List TTok :=
  [TTok.lit "Bonjour ", TTok.ph "salutation", TTok.lit ", ", TTok.ph "company"]

def baseEnv : Env where
  userExists := true
  credentialsExist := true
  resumePath := some "data/user_7/cv.pdf"
  resumeBytes := [37, 80, 68, 70]
  templateContent := asciiTemplate
  userRecipientIds := [1, 2, 3]
  recipientTable := [recA, recB, recC]
  detector := fun _ => GGender.unclassified
  authResult := Except.ok ()
  sendResult := fun _ => Except.ok ()

/-- C6 counterexample: requesting the recipient ids in the order 2, 1
still yields the per recipient events in table order 1, 2 — the stream
does not follow the input order of the request list. -/
theorem events_not_input_order_cex :
    (send_emails_stream baseEnv [] 7 [2, 1] "Sujet" true).map
        (fun res => res.events.map eventRecipient) =
      Except.ok [some 1, some 2] ∧
    ([some 1, some 2] : List (Option Nat)) ≠ [some 2, some 1] := by
  constructor
  · decide
  · decide

def sentLogA : EmailLog :=
  ⟨7, some 1, "a@example.com", "Sujet", EmailStatus.sent, none⟩

def res4 : RunResult :=
  ⟨[StreamEvent.skipped 1 "a@example.com", StreamEvent.sent 2 "b@example.com",
      StreamEvent.sent 3 "c@example.com"],
    [⟨7, some 2, "b@example.com", "Sujet", EmailStatus.sent, none⟩,
      ⟨7, some 3, "c@example.com", "Sujet", EmailStatus.sent, none⟩],
    [(2, "b@example.com"), (3, "c@example.com")], true⟩

theorem already_sent_skipped_witness :
    StreamEvent.skipped recA.id recA.email ∈ res4.events ∧
      (∀ s ∈ res4.sends, s.1 ≠ recA.id) ∧
      (∀ l ∈ res4.newLogs, l.recipient_id ≠ some recA.id) :=
  already_sent_skipped baseEnv [sentLogA] 7 [1, 2, 3] "Sujet"
    "data/user_7/cv.pdf" false recA res4 (by decide) (by decide) (by decide)
    (by decide) (by decide) (by decide) (by decide) (by decide)
    (Or.inr (by decide)) (by decide)

def call5 : DispatchCall := ⟨baseEnv, 7, [1, 2, 3], "Sujet", false⟩

theorem at_most_one_sent_per_pair_witness :
    countSent (runMany [call5, call5] []) 7 1 ≤ 1 :=
  at_most_one_sent_per_pair [call5, call5] [] (by decide)
    (fun u rid => by simp [countSent]) 7 1

def res6 : RunResult :=
  ⟨[StreamEvent.preview 1 "a@example.com" "Bonjour Madame, Monsieur, ",
      StreamEvent.preview 2 "b@example.com" "Bonjour Madame, Monsieur, "],
    [], [], false⟩

theorem events_follow_store_order_witness :
    res6.events.map eventRecipient =
      (baseEnv.recipientTable.filter (fun r => [2, 1].contains r.id)).map
        (fun r => some r.id) :=
  events_follow_store_order baseEnv [] 7 [2, 1] "Sujet" "data/user_7/cv.pdf"
    true res6 (by decide) (by decide) (by decide) (by decide) (by decide)
    (Or.inl rfl) (by decide)

def env7 : Env :=
  { baseEnv with
    sendResult := fun i => if i == 2 then Except.error "boom" else Except.ok () }

def res7 : RunResult :=
  ⟨[StreamEvent.sent 1 "a@example.com",
      StreamEvent.failed 2 "b@example.com" "boom",
      StreamEvent.sent 3 "c@example.com"],
    [⟨7, some 1, "a@example.com", "Sujet", EmailStatus.sent, none⟩,
      ⟨7, some 2, "b@example.com", "Sujet", EmailStatus.failed, some "boom"⟩,
      ⟨7, some 3, "c@example.com", "Sujet", EmailStatus.sent, none⟩],
    [(1, "a@example.com"), (2, "b@example.com"), (3, "c@example.com")], true⟩

theorem failure_isolation_witness :
    res7.events = [StreamEvent.sent recA.id recA.email,
      StreamEvent.failed recB.id recB.email "boom",
      StreamEvent.sent recC.id recC.email] ∧
    res7.newLogs.map (fun l => l.status) =
      [EmailStatus.sent, EmailStatus.failed, EmailStatus.sent] ∧
    res7.sends = [(recA.id, recA.email), (recB.id, recB.email),
      (recC.id, recC.email)] :=
  failure_isolation env7 [] 7 "Sujet" "data/user_7/cv.pdf" "boom"
    recA recB recC res7 (by decide) (by decide) (by decide) (by decide)
    (by decide) (by decide) (by decide) (by decide) (by decide) (by decide)
    (by decide) (by decide) (by decide) (by decide) (by decide) (by decide)

def res8 : RunResult :=
  ⟨[StreamEvent.fatal "Recipients not linked to this user"], [], [], false⟩

theorem unlinked_recipient_aborts_witness :
    res8.events.length = 1 ∧ res8.events.all isFatalEv = true ∧
      res8.newLogs = [] ∧ res8.sends = [] :=
  unlinked_recipient_aborts baseEnv [] 7 [9] "Sujet" false res8
    (by decide) (by decide) (by decide)

def res9 : RunResult :=
  ⟨[StreamEvent.preview 1 "a@example.com" "Bonjour Madame, Monsieur, "],
    [], [], false⟩

theorem dry_run_pure_witness :
    res9.newLogs = [] ∧ res9.sends = [] ∧ res9.authCalled = false ∧
      [] ++ res9.newLogs = [] :=
  dry_run_pure baseEnv [] 7 [1] "Sujet" res9 (by decide)

def res10 : RunResult :=
  ⟨[StreamEvent.fatal "No valid recipients found"], [], [], false⟩

theorem no_valid_recipients_error_witness :
    res10.events = [StreamEvent.fatal "No valid recipients found"] ∧
      res10.newLogs = [] ∧ res10.sends = [] ∧ res10.authCalled = false :=
  no_valid_recipients_error baseEnv [] 7 [] "Sujet" false res10
    (by decide) (by decide) (by decide) (by decide) (by decide) (by decide)

end Cender
